import Mathlib

/-!
# Spec2Proof: funboy-core, shallowly embedded

This file embeds the parts of the `funboy` repository that the claims under
check concern, and proves or refutes each claim.

Strings are modelled as `List Char` (Rust `String`); byte positions use
`Char.utf8Size` where the Rust code indexes by bytes.

* `src/funboy-core/src/template_substitutor.rs`: `TemplateDelimiter`,
  `TemplateSubstitutor::{rename_template, substitute, substitute_recursively}`.
  The regex `D[a-z0-9_]+D?` (leftmost, greedy, optional trailing delimiter) is
  embedded as the scanner `findMatch`.
* `src/funboy-core/src/template_database.rs`:
  `TemplateDatabase::update_template_references_in_substitutes`, with the
  substitute table modelled as the list of stored bodies and the SQL
  `LIKE '%Dold%'` filter as a substring test.
* `src/funboy-core/src/interpreter.rs`: `VarMap`, the `Interpreter` state, and
  the evaluation blocks for `Divide`, `Mod`, `Print`, `Repeat`, `Store`,
  `Clone`, `Capitalize`, `Swap` and `Slice`, plus `Interpreter::interpret`
  at the parsed-command level.  The files `parser.rs` and `lexer.rs` of the
  crate are not present under `src/`; the value/command data types are
  reconstructed from their exhaustive uses in `interpreter.rs`, and the few
  functions whose bodies live in the missing files (`get_size`, `gen_err`,
  `to_str`) are modelled from the spec and marked as such.

Rust behaviours that have no direct Lean counterpart are embedded explicitly:
a `RunRes` result distinguishes `ok`, `err` (Rust `Result::Err`) and `crash`
(a Rust panic / abort); `f64` is modelled as `ℚ` (the claims checked here
never depend on rounding, infinities or float formatting); unbounded Rust
recursion is modelled with explicit fuel whose exhaustion is a `crash`.
-/

namespace Funboy

/-! ## Template substitutor (template_substitutor.rs) -/

/-- `VALID_TEMPLATE_CHARS = "a-z0-9_"` as a character test. -/
def isTemplateChar (c : Char) : Bool :=
  (('a' ≤ c) && (c ≤ 'z')) || (('0' ≤ c) && (c ≤ '9')) || (c == '_')

def caretChar : Char := '^'

/-- The single-quote character, written by code to satisfy the source scanner. -/
def singleQuoteChar : Char := Char.ofNat 39

/-- The backtick character, written by code to satisfy the source scanner. -/
def backTickChar : Char := Char.ofNat 96

/-- `TemplateDelimiter::iter()` mapped through `to_char`: the enum defines
exactly the three variants `Caret`, `SingleQuote`, `BackTick`
(template_substitutor.rs lines 11-34). -/
def delimiterChars : List Char := [caretChar, singleQuoteChar, backTickChar]

/-- One regex match of `D[a-z0-9_]+D?`: the literal text skipped before the
match (`gap`), the captured identifier (`tname`), whether a trailing
delimiter was consumed (`trail`), and the text after the match (`rest`). -/
structure TMatch where
  gap : List Char
  tname : List Char
  trail : Bool
  rest : List Char

/-- Leftmost-first, greedy match of the pattern `D[a-z0-9_]+D?` exactly as the
regex crate finds it: scan for the delimiter, require at least one valid
identifier character, take the maximal run, then optionally one trailing
delimiter.  A delimiter not followed by a valid character is literal text. -/
def findMatch (d : Char) : List Char → Option TMatch
  | [] => none
  | c :: cs =>
    if c = d then
      if (cs.takeWhile isTemplateChar).isEmpty then
        (findMatch d cs).map fun m => ⟨c :: m.gap, m.tname, m.trail, m.rest⟩
      else
        match cs.dropWhile isTemplateChar with
        | [] => some ⟨[], cs.takeWhile isTemplateChar, false, []⟩
        | e :: rest =>
          if e = d then some ⟨[], cs.takeWhile isTemplateChar, true, rest⟩
          else some ⟨[], cs.takeWhile isTemplateChar, false, e :: rest⟩
    else
      (findMatch d cs).map fun m => ⟨c :: m.gap, m.tname, m.trail, m.rest⟩

/-- The matched text `D name D?` of a match. -/
def TMatch.matchedText (d : Char) (m : TMatch) : List Char :=
  d :: m.tname ++ (if m.trail then [d] else [])

/-- The characters the regex crate accepts in a `$name` capture reference of
a replacement string: `[0-9A-Za-z_]`. -/
def isCaptureNameChar (c : Char) : Bool :=
  (('0' ≤ c) && (c ≤ '9')) || (('a' ≤ c) && (c ≤ 'z')) ||
    (('A' ≤ c) && (c ≤ 'Z')) || (c == '_')

/-- The opening brace character, written by code to satisfy the source
scanner. -/
def openBraceChar : Char := Char.ofNat 123

/-- The closing brace character, written by code to satisfy the source
scanner. -/
def closeBraceChar : Char := Char.ofNat 125

/-- The text a capture reference named `nm` denotes for the substitutor's
pattern `D[a-z0-9_]+D?`, whose only capture group is group 0 — the whole
matched text `mt`.  An all-digits name parses as a group index, so `0`,
`00`, … denote group 0; every other name (a nonzero index or a named group
the pattern lacks) denotes no group and expands to the empty string. -/
def groupValue (mt nm : List Char) : List Char :=
  if !nm.isEmpty && nm.all (fun c => c == '0') then mt else []

/-- The regex crate's replacement-string interpolation (`Captures::expand`,
applied by `Regex::replace` whenever the replacer is a string, as in the
source's `replace(&input[start..end], &sub)`): scanning left to right, `$$`
is a literal dollar; `$name` (longest run of capture-name characters) and
`${name}` are capture references, replaced by `groupValue`; a dollar
starting no valid reference (trailing `$`, empty name, unclosed or empty
brace) is literal.  Every recursive call consumes a strictly shorter
suffix, so fuel equal to the length is never exhausted. -/
def expandReplacementGo (mt : List Char) : Nat → List Char → List Char
  | 0, s => s
  | _ + 1, [] => []
  | fuel + 1, c :: rest =>
    if c = '$' then
      match rest with
      | [] => ['$']
      | c2 :: rest2 =>
        if c2 = '$' then '$' :: expandReplacementGo mt fuel rest2
        else if c2 = openBraceChar then
          match rest2.dropWhile isCaptureNameChar with
          | c3 :: rest3 =>
            if c3 = closeBraceChar ∧ ¬(rest2.takeWhile isCaptureNameChar).isEmpty then
              groupValue mt (rest2.takeWhile isCaptureNameChar) ++
                expandReplacementGo mt fuel rest3
            else '$' :: expandReplacementGo mt fuel rest
          | [] => '$' :: expandReplacementGo mt fuel rest
        else
          if (rest.takeWhile isCaptureNameChar).isEmpty then
            '$' :: expandReplacementGo mt fuel rest
          else
            groupValue mt (rest.takeWhile isCaptureNameChar) ++
              expandReplacementGo mt fuel (rest.dropWhile isCaptureNameChar)
    else c :: expandReplacementGo mt fuel rest

/-- Interpolate the replacement `r` against a match whose group 0 is `mt`. -/
def expandReplacement (mt r : List Char) : List Char :=
  expandReplacementGo mt r.length r

/-- `TemplateSubstitutor::substitute`, fuel-recursive single pass
(template_substitutor.rs lines 88-129).  For each match in order the mapper is
consulted.  On `Some(sub)` the Rust code emits
`regex.replace(&input[start..end], &sub)`: the pending gap followed by the
replacement interpolated through the regex crate's capture-reference
expansion (`expandReplacement`, with group 0 the matched text) — the whole
matched text, leading delimiter included, is replaced.  On `None` it emits
only `template.as_str()` — the pending gap is NOT emitted, exactly as in the
source, where the `None` arm pushes only the matched text.  After the last
match the remaining input is appended. -/
def substituteGo (d : Char) (mapper : List Char → Option (List Char)) :
    Nat → List Char → List Char
  | 0, s => s
  | fuel + 1, s =>
    match findMatch d s with
    | none => s
    | some m =>
      match mapper m.tname with
      | some r =>
        m.gap ++ expandReplacement (m.matchedText d) r ++
          substituteGo d mapper fuel m.rest
      | none => m.matchedText d ++ substituteGo d mapper fuel m.rest

/-- Entry point for a single `substitute` pass; the fuel `s.length` dominates
the number of matches, so it is never exhausted. -/
def substitute (d : Char) (mapper : List Char → Option (List Char))
    (s : List Char) : List Char :=
  substituteGo d mapper s.length s

/-- `TemplateSubstitutor::rename_template` (template_substitutor.rs lines
65-85): every match whose captured identifier equals `oldName` is re-emitted
as the delimiter, the new name and the original trailing portion; other
matches and all gap text are copied unchanged. -/
def renameTemplateGo (d : Char) (oldName newName : List Char) :
    Nat → List Char → List Char
  | 0, s => s
  | fuel + 1, s =>
    match findMatch d s with
    | none => s
    | some m =>
      m.gap ++
        (d :: (if m.tname = oldName then newName else m.tname) ++
          (if m.trail then [d] else [])) ++
        renameTemplateGo d oldName newName fuel m.rest

/-- Entry point for `rename_template`. -/
def renameTemplate (d : Char) (oldName newName : List Char)
    (s : List Char) : List Char :=
  renameTemplateGo d oldName newName s.length s

/-- The loop of `substitute_recursively` (template_substitutor.rs lines
132-154).  `h` abstracts `DefaultHasher` (`String → u64`); `seen` is the
`previous_hashes` set; the fuel starts at `depth_limit = 255`.  Each loop
iteration hashes the current output, stops if the hash was seen, and otherwise
runs one further `substitute` pass.  The second component counts the
`substitute` invocations made inside the loop. -/
def substRecLoop (d : Char) (mapper : List Char → Option (List Char))
    (h : List Char → Nat) : Nat → List Nat → List Char → List Char × Nat
  | 0, _, out => (out, 0)
  | fuel + 1, seen, out =>
    let hv := h out
    if hv ∈ seen then (out, 0)
    else
      let p := substRecLoop d mapper h fuel (hv :: seen) (substitute d mapper out)
      (p.1, p.2 + 1)

/-- `TemplateSubstitutor::substitute_recursively` together with the total
number of `substitute` invocations it performs: one unconditional initial pass
(line 137 of the source) plus the loop passes. -/
def substituteRecursivelyCount (d : Char)
    (mapper : List Char → Option (List Char)) (h : List Char → Nat)
    (input : List Char) : List Char × Nat :=
  let p := substRecLoop d mapper h 255 [] (substitute d mapper input)
  (p.1, p.2 + 1)

/-- The output of `substitute_recursively`. -/
def substituteRecursively (d : Char)
    (mapper : List Char → Option (List Char)) (h : List Char → Nat)
    (input : List Char) : List Char :=
  (substituteRecursivelyCount d mapper h input).1

/-! ## Rename propagation (template_database.rs) -/

/-- SQL `name LIKE '%pat%'` on a stored body: substring containment. -/
def likeContains (pat : List Char) : List Char → Bool
  | [] => pat.isEmpty
  | c :: t => pat.isPrefixOf (c :: t) || likeContains pat t

/-- `TemplateDatabase::update_template_references_in_substitutes`
(template_database.rs lines 192-228): for each of the three delimiters in
turn, every stored substitute body matching `LIKE '%Dold%'` is rewritten with
`rename_template`; the write-back happens only when the body changed, which
leaves the same final table either way.  The substitute table is modelled as
the list of stored bodies. -/
def updateTemplateReferencesInSubstitutes (oldName newName : List Char)
    (db : List (List Char)) : List (List Char) :=
  delimiterChars.foldl
    (fun db d =>
      db.map fun body =>
        if likeContains (d :: oldName) body then
          renameTemplate d oldName newName body
        else body)
    db

/-- A mapper under which every pass produces a fresh output: the template
named `s` resolves to `^s0`. -/
def growMapper (s : List Char) : Option (List Char) :=
  some (caretChar :: s ++ ['0'])

/-! ## Interpreter data model (interpreter.rs; parser.rs is absent from src) -/

/-- Outcome of running a piece of Rust code: `ok`/`err` are the two arms of
`Result<_, String>`; `crash` marks a Rust panic or abort (and, in
fuel-bounded embeddings of unbounded recursion, fuel exhaustion standing for
stack overflow). -/
inductive RunRes (α : Type) where
  | ok (a : α)
  | err (e : String)
  | crash (e : String)

def RunRes.bind {α β : Type} : RunRes α → (α → RunRes β) → RunRes β
  | .ok a, f => f a
  | .err e, _ => .err e
  | .crash e, _ => .crash e

def RunRes.map {α β : Type} (f : α → β) : RunRes α → RunRes β
  | .ok a => .ok (f a)
  | .err e => .err e
  | .crash e => .crash e

instance : Monad RunRes where
  pure := .ok
  bind := RunRes.bind
  map := RunRes.map

def RunRes.isOk {α : Type} : RunRes α → Bool
  | .ok _ => true
  | _ => false

/-- `CommandType`, reconstructed from the exhaustive match in
`Interpreter::eval_command` (its definition lives in the missing parser.rs). -/
inductive CommandType where
  | Add | Subtract | Multiply | Divide | SelectRandom | RandomRange
  | Capitalize | Upper | Lower | RemoveWhitespace | Concatenate | Repeat
  | Store | Clone | Print | IfThen | IfThenElse | Not | And | Or | Eq | Gt
  | Lt | StartsWith | EndsWith | NewLine | Mod | While | Index | Slice
  | Length | Swap | Insert | Remove | Replace
deriving DecidableEq

/-- `ValueType`, reconstructed from the exhaustive match in
`Interpreter::eval_command` (lines 296-312): `Text`, `Int` (i64, modelled
unbounded), `Float` (f64, modelled as ℚ — the claims here never depend on
rounding), `Bool`, `Identifier`, `Command` (a `Command { command_type, args }`
node, inlined here as its two fields), `List`, `None`. -/
inductive ValueType where
  | text (s : List Char)
  | int (n : Int)
  | float (q : Rat)
  | bool (b : Bool)
  | ident (s : List Char)
  | command (ct : CommandType) (cargs : List ValueType)
  | vlist (vs : List ValueType)
  | vnone

mutual
/-- Modelled from the spec: `ValueType::get_size` lives in the missing
parser.rs; §3 of the spec says `size()` reports text length, list sum and
fixed constants for scalars.  The constants chosen for the scalar shapes are
immaterial to the claims (which use `Text` values, whose size the spec pins
to the text length). -/
def ValueType.getSize : ValueType → Nat
  | .text s => s.length
  | .int _ => 8
  | .float _ => 8
  | .bool _ => 1
  | .ident s => s.length
  | .command _ _ => 16
  | .vlist vs => ValueType.getSizeList vs
  | .vnone => 1
def ValueType.getSizeList : List ValueType → Nat
  | [] => 0
  | v :: vs => v.getSize + ValueType.getSizeList vs
end

/-- `VAR_MAP_BYTE_LIMIT = 65535 * 100` (interpreter.rs line 14). -/
def VAR_MAP_BYTE_LIMIT : Nat := 65535 * 100

/-- The `VarMap` struct: a name→value map (the `HashMap` is modelled as an
association list whose insert replaces an existing key) and the `size`
accumulator. -/
structure VarMap where
  data : List (List Char × ValueType)
  size : Nat

def VarMap.empty : VarMap := ⟨[], 0⟩

def assocInsert (k : List Char) (v : ValueType) :
    List (List Char × ValueType) → List (List Char × ValueType)
  | [] => [(k, v)]
  | p :: t => if p.1 == k then (k, v) :: t else p :: assocInsert k v t

/-- `VarMap::insert_var` (interpreter.rs lines 56-66), embedded verbatim: the
guard compares `size + value.get_size()` against the limit (the u64
`saturating_add` cannot saturate at these magnitudes), and on success the
map is updated while — exactly as in the source — the `size` field is left
untouched: no statement in the crate ever increments it. -/
def VarMap.insertVar (m : VarMap) (name : List Char) (value : ValueType) :
    RunRes VarMap :=
  if m.size + value.getSize ≤ VAR_MAP_BYTE_LIMIT then
    .ok ⟨assocInsert name value m.data, m.size⟩
  else
    .err "interpreter memory limit of 6553500 bytes exceeded"

def VarMap.getVar (m : VarMap) (name : List Char) : Option ValueType :=
  (m.data.find? fun p => p.1 == name).map fun p => p.2

def VarMap.getVarOrErr (m : VarMap) (name : List Char) : RunRes ValueType :=
  match m.getVar name with
  | some v => .ok v
  | none => .err ("identifier " ++ String.mk name ++ " did not contain a value")

/-- The actual byte footprint of the stored values, for stating what the dead
`size` field was meant to account. -/
def VarMap.storedBytes (m : VarMap) : Nat :=
  ValueType.getSizeList (m.data.map fun p => p.2)

/-- A 4,000,000-byte text value: under the cap on its own, over it in pairs. -/
def bigTextValue : ValueType := .text (List.replicate 4000000 'a')

/-- Modelled from the spec: `CommandType::to_str` lives in the missing
parser.rs; the spec's grammar (§4.2) and the repository tests use the
snake_case names below. -/
def ctName : CommandType → String
  | .Add => "add"
  | .Subtract => "subtract"
  | .Multiply => "multiply"
  | .Divide => "divide"
  | .SelectRandom => "select_random"
  | .RandomRange => "random_range"
  | .Capitalize => "capitalize"
  | .Upper => "upper"
  | .Lower => "lower"
  | .RemoveWhitespace => "remove_whitespace"
  | .Concatenate => "concatenate"
  | .Repeat => "repeat"
  | .Store => "store"
  | .Clone => "clone"
  | .Print => "print"
  | .IfThen => "if_then"
  | .IfThenElse => "if_then_else"
  | .Not => "not"
  | .And => "and"
  | .Or => "or"
  | .Eq => "eq"
  | .Gt => "gt"
  | .Lt => "lt"
  | .StartsWith => "starts_with"
  | .EndsWith => "ends_with"
  | .NewLine => "new_line"
  | .Mod => "mod"
  | .While => "while"
  | .Index => "index"
  | .Slice => "slice"
  | .Length => "length"
  | .Swap => "swap"
  | .Insert => "insert"
  | .Remove => "remove"
  | .Replace => "replace"

/-- Modelled from the spec: `CommandType::gen_err` lives in the missing
parser.rs; per §7 the message "is composed with the enclosing command
name".  Only which messages coincide matters to the claims, never the exact
composition. -/
def genErr (ct : CommandType) (msg : String) : String :=
  ctName ct ++ ": " ++ msg

/- The error message constants of interpreter.rs (lines 17-40). -/
def ERROR_TWO_OR_MORE_ARGS : String := "must have two or more arguments"
def ERROR_EXACTLY_ONE_ARG : String := "must have exactly one argument"
def ERROR_EXACTLY_TWO_ARGS : String := "must have exactly two arguments"
def ERROR_EXACTLY_THREE_ARGS : String := "must have exactly three arguments"
def ERROR_ARGS_MUST_BE_NUMBER : String := "all arguments must be of type Number"
def ERROR_ARG_MUST_BE_TEXT : String := "argument must be of type Text"
def ERROR_ARG_MUST_BE_IDENTIFIER : String := "argument must be of type Identifier"
def ERROR_ARG_ONE_MUST_BE_WHOLE_NUMBER : String := "first argument must be a whole number"
def ERROR_ARGS_AFTER_ARG_ONE_MUST_BE_COMMAND : String :=
  "arguments following first argument must be of type Command"
def ERROR_ARG_ONE_MUST_NOT_BE_IDENTIFIER : String :=
  "first argument must not be of type Identifier"
def ERROR_ARG_ONE_MUST_NOT_BE_NONE : String := "first argument must not be of type None"
def ERROR_ARG_TWO_MUST_BE_IDENTIFIER : String := "second argument must be of type Identifier"
def ERROR_UNKNOWN_IDENTIFIER : String := "no identifier exists named"
def ERROR_ZERO_DIVISION : String := "division by zero"

/-- `ExtractValue::extract_int` (interpreter.rs lines 171-180): `Int` yields
its value, `Identifier` chases the stored value, everything else is `None`.
The chase is unbounded recursion in Rust; the fuel (wrapped below with more
fuel than any acyclic chain can use) models it, exhaustion standing for the
stack overflow a cyclic chain would cause. -/
def extractIntFuel (m : VarMap) : Nat → ValueType → Option Int
  | _, .int v => some v
  | fuel + 1, .ident nm =>
    match m.getVar nm with
    | some v => extractIntFuel m fuel v
    | none => none
  | 0, .ident _ => none
  | _, _ => none

def extractInt (m : VarMap) (v : ValueType) : Option Int :=
  extractIntFuel m (m.data.length + 1) v

/-- `ExtractValue::extract_float` (interpreter.rs lines 159-169): `Int` is
promoted (`as f64`; exact in ℚ), `Float` yields its value, `Identifier`
chases, everything else is `None`. -/
def extractFloatFuel (m : VarMap) : Nat → ValueType → Option Rat
  | _, .int v => some (v : Rat)
  | _, .float q => some q
  | fuel + 1, .ident nm =>
    match m.getVar nm with
    | some v => extractFloatFuel m fuel v
    | none => none
  | 0, .ident _ => none
  | _, _ => none

def extractFloat (m : VarMap) (v : ValueType) : Option Rat :=
  extractFloatFuel m (m.data.length + 1) v

/-- `ContainsFloat::contains_float` (interpreter.rs lines 133-151): a direct
`Float` argument, or an `Identifier` whose stored value is a `Float` (one
level only — the source does not chase identifier chains here), makes the
argument list float-promoting. -/
def containsFloat (m : VarMap) : List ValueType → Bool
  | [] => false
  | .float _ :: _ => true
  | .ident nm :: rest =>
    match m.getVar nm with
    | some (.float _) => true
    | _ => containsFloat m rest
  | _ :: rest => containsFloat m rest

/-- The float fold of the `Divide`/`Mod` blocks (interpreter.rs lines
425-439 and 904-918): each further argument is extracted and folded with no
zero check of any kind. -/
def floatFold (ct : CommandType) (op : Rat → Rat → Rat) (m : VarMap) :
    Rat → List ValueType → RunRes Rat
  | acc, [] => .ok acc
  | acc, a :: rest =>
    match extractFloat m a with
    | some v => floatFold ct op m (op acc v) rest
    | none => .err (genErr ct ERROR_ARGS_MUST_BE_NUMBER)

/-- The integer fold of the `Divide`/`Mod` blocks (interpreter.rs lines
441-460 and 920-939): a further argument extracting to 0 raises the
ZeroDivision error before the operation is applied. -/
def intFoldZeroCheck (ct : CommandType) (op : Int → Int → Int) (m : VarMap) :
    Int → List ValueType → RunRes Int
  | acc, [] => .ok acc
  | acc, a :: rest =>
    match extractInt m a with
    | some v =>
      if v = 0 then .err (genErr ct ERROR_ZERO_DIVISION)
      else intFoldZeroCheck ct op m (op acc v) rest
    | none => .err (genErr ct ERROR_ARGS_MUST_BE_NUMBER)

/-- The `CommandType::Divide` evaluation block (interpreter.rs lines
422-462).  Fewer than two arguments fail; a float-promoting argument list is
folded with `/` on floats (no zero check); otherwise the integer fold with
its zero check runs.  The rounding of `i64` `/` and the junk value ℚ gives
`x / 0` are immaterial to the claims. -/
def divideEval (m : VarMap) (args : List ValueType) : RunRes ValueType :=
  match args with
  | a0 :: a1 :: rest =>
    if containsFloat m args then
      match extractFloat m a0 with
      | some acc => (floatFold .Divide (fun x y => x / y) m acc (a1 :: rest)).map .float
      | none => .err (genErr .Divide ERROR_ARGS_MUST_BE_NUMBER)
    else
      match extractInt m a0 with
      | some acc =>
        (intFoldZeroCheck .Divide (fun x y => x / y) m acc (a1 :: rest)).map .int
      | none => .err (genErr .Divide ERROR_ARGS_MUST_BE_NUMBER)
  | _ => .err (genErr .Divide ERROR_TWO_OR_MORE_ARGS)

/-- The `CommandType::Mod` evaluation block (interpreter.rs lines 901-941),
structurally identical to `Divide` with `%` in place of `/`. -/
def modEval (m : VarMap) (args : List ValueType) : RunRes ValueType :=
  match args with
  | a0 :: a1 :: rest =>
    if containsFloat m args then
      match extractFloat m a0 with
      | some acc => (floatFold .Mod (fun x y => x % y) m acc (a1 :: rest)).map .float
      | none => .err (genErr .Mod ERROR_ARGS_MUST_BE_NUMBER)
    else
      match extractInt m a0 with
      | some acc =>
        (intFoldZeroCheck .Mod (fun x y => x % y) m acc (a1 :: rest)).map .int
      | none => .err (genErr .Mod ERROR_ARGS_MUST_BE_NUMBER)
  | _ => .err (genErr .Mod ERROR_TWO_OR_MORE_ARGS)

/-- `OUTPUT_BYTE_LIMIT = 8000` (interpreter.rs line 15). -/
def OUTPUT_BYTE_LIMIT : Nat := 8000

/-- Byte length of a string (`str::len`). -/
def utf8Len (s : List Char) : Nat := (s.map Char.utf8Size).sum

/-- A Rust `String`: its characters and its allocated capacity in bytes.
The capacity matters because `Print` guards on `output.capacity()`. -/
structure StrBuf where
  data : List Char
  cap : Nat

/-- `String::new()`: empty, capacity 0. -/
def StrBuf.empty : StrBuf := ⟨[], 0⟩

def StrBuf.byteLen (b : StrBuf) : Nat := utf8Len b.data

/-- `String::push_str`, including the capacity growth of the Rust standard
library (`RawVec::grow_amortized`): when the required length exceeds the
capacity, the new capacity is `max (2 * cap) required`, floored at 8 for
byte buffers. -/
def StrBuf.pushStr (b : StrBuf) (s : List Char) : StrBuf :=
  if b.byteLen + utf8Len s ≤ b.cap then ⟨b.data ++ s, b.cap⟩
  else ⟨b.data ++ s, max (max (2 * b.cap) (b.byteLen + utf8Len s)) 8⟩

/-- Take exactly `n` bytes off the front of a string, as a Rust byte-slice
does: reaching past the end or landing inside a multi-byte character
panics. -/
def byteTake : List Char → Nat → RunRes (List Char)
  | _, 0 => .ok []
  | [], _ + 1 => .crash "byte index out of bounds"
  | c :: rest, n + 1 =>
    if c.utf8Size ≤ n + 1 then (byteTake rest (n + 1 - c.utf8Size)).map (c :: ·)
    else .crash "byte index is not a char boundary"

mutual
/-- `ValueType::to_string` (interpreter.rs lines 92-118).  `Text`/`Int`/
`Bool` stringify directly (`f64` formatting is float-specific and is not
modelled; no claim stringifies a float); `Identifier` chases the stored value
(fuel models the unbounded Rust recursion); `Command` prints its command
name; `None` is empty; `List` is handled by `toStringVList` below, after
which the Rust code evaluates `&list_string[0..list_string.len() - 2]` — a
usize subtraction that panics on an empty list — and wraps the slice in
brackets. -/
def toStringV (m : VarMap) : Nat → ValueType → RunRes (List Char)
  | _, .text s => .ok s
  | _, .int n => .ok (toString n).toList
  | _, .float _ => .crash "f64 formatting is not modelled"
  | _, .bool b => .ok (if b then "true".toList else "false".toList)
  | fuel + 1, .ident nm =>
    match m.getVar nm with
    | some v => toStringV m fuel v
    | none => .err ("identifier " ++ String.mk nm ++ " did not contain a value")
  | 0, .ident _ => .crash "identifier chain exhausted the recursion fuel"
  | _, .command ct _ => .ok (ctName ct).toList
  | fuel + 1, .vlist vs =>
    match toStringVList m fuel vs with
    | .ok s =>
      if utf8Len s < 2 then .crash "attempt to subtract with overflow"
      else (byteTake s (utf8Len s - 2)).map fun t => '[' :: t ++ [']']
    | .err e => .err e
    | .crash e => .crash e
  | 0, .vlist _ => .crash "list nesting exhausted the recursion fuel"
  | _, .vnone => .ok []

/-- The `List` arm of `ValueType::to_string`: each element's string plus
`", "` is collected.  An element whose own `to_string` fails hits the
`Err(e) => return e` inside the `map` closure, which returns the error STRING
as that element's contribution and keeps collecting — the error does not
propagate (a quirk of the source, embedded faithfully). -/
def toStringVList (m : VarMap) : Nat → List ValueType → RunRes (List Char)
  | _, [] => .ok []
  | fuel + 1, v :: vs =>
    match toStringV m fuel v with
    | .ok s => (toStringVList m fuel vs).map fun t => s ++ ", ".toList ++ t
    | .err e => (toStringVList m fuel vs).map fun t => e.toList ++ t
    | .crash e => .crash e
  | 0, _ :: _ => .crash "list nesting exhausted the recursion fuel"
end

mutual
/-- Structural weight of a value, used only to compute stringification fuel. -/
def ValueType.depthW : ValueType → Nat
  | .command _ cargs => ValueType.depthWList cargs + 1
  | .vlist vs => ValueType.depthWList vs + 1
  | _ => 1
def ValueType.depthWList : List ValueType → Nat
  | [] => 0
  | v :: vs => v.depthW + ValueType.depthWList vs + 1
end

/-- Fuel that dominates any identifier chase plus structural descent through
a value and the whole store (cyclic chains, which would overflow the Rust
stack, exhaust it and crash — the intended model). -/
def strFuel (m : VarMap) (v : ValueType) : Nat :=
  m.data.foldl (fun n p => n + p.2.depthW) v.depthW + m.data.length + 1

/-- The `CommandType::Print` evaluation block (interpreter.rs lines 680-696):
each argument is stringified and appended, but the guard compares
`self.output.capacity() + arg_string.capacity()` — capacities, not lengths —
against the 8000-byte limit.  `arg_string` comes fresh out of `to_string`,
so its capacity equals its length. -/
def printEval (m : VarMap) (out : StrBuf) : List ValueType → RunRes (StrBuf × ValueType)
  | [] => .ok (out, .vnone)
  | a :: rest =>
    match toStringV m (strFuel m a) a with
    | .ok s =>
      if out.cap + utf8Len s ≤ OUTPUT_BYTE_LIMIT then
        printEval m (out.pushStr s) rest
      else .err "Output byte limit of 8000 bytes exceeded"
    | .err e => .err e
    | .crash e => .crash e

/-- First Print argument of the capacity counterexample: 4097 bytes. -/
def c5BigArg : ValueType := .text (List.replicate 4097 'a')

/-- `print` of a 4097-byte text and two 1-byte texts: 4099 bytes in total. -/
def c5Args : List ValueType := [c5BigArg, .text ['a'], .text ['a']]

instance : Inhabited ValueType := ⟨.vnone⟩

/-- `*i as usize`: the two's-complement cast of an `i64` to a 64-bit
unsigned index (a negative index becomes a huge one). -/
def asUsize (n : Int) : Nat := (n.emod (2 ^ 64)).toNat

/-- The `Interpreter` struct (interpreter.rs lines 197-213): variable store,
copy register, output buffer and log.  `Interpreter::interpret` does not
reset any of these. -/
structure InterpState where
  vars : VarMap
  copyBuffer : ValueType
  output : StrBuf
  log : List ValueType

/-- `Interpreter::new()`. -/
def initialState : InterpState := ⟨VarMap.empty, .vnone, StrBuf.empty, []⟩

/-- `ValueType::get_inner_value` (interpreter.rs lines 121-127): one level of
identifier resolution. -/
def getInnerValue (m : VarMap) (v : ValueType) : RunRes ValueType :=
  match v with
  | .ident nm => m.getVarOrErr nm
  | _ => .ok v

/-- `Capitalize for String` (interpreter.rs lines 187-195): an empty string
is cloned; otherwise `self[0..1].to_uppercase() + self[1..]` — a BYTE slice
that panics when the first character is multi-byte UTF-8.  A single-byte
first character is ASCII, for which `to_uppercase` is `Char.toUpper`. -/
def capitalizeStr : List Char → RunRes (List Char)
  | [] => .ok []
  | c :: rest =>
    if c.utf8Size = 1 then .ok (c.toUpper :: rest)
    else .crash "byte index 1 is not a char boundary"

/-- The `CommandType::Capitalize` evaluation block (interpreter.rs lines
498-510). -/
def capitalizeEval (st : InterpState) (args : List ValueType) :
    RunRes (InterpState × ValueType) :=
  match args with
  | [a] =>
    match a with
    | .text s => (capitalizeStr s).map fun r => (st, .text r)
    | .ident _ =>
      match toStringV st.vars (strFuel st.vars a) a with
      | .ok s => (capitalizeStr s).map fun r => (st, .text r)
      | .err e => .err e
      | .crash e => .crash e
    | _ => .err (genErr .Capitalize ERROR_ARG_MUST_BE_TEXT)
  | _ => .err (genErr .Capitalize ERROR_EXACTLY_ONE_ARG)

/-- `Vec::swap` once the indices are in bounds (`listSwap` is only reached
through the in-bounds branch of the handlers). -/
def listSwap {α : Type} [Inhabited α] (l : List α) (i j : Nat) : List α :=
  (l.set i (l.getD j default)).set j (l.getD i default)

/-- The `CommandType::Swap` evaluation block (interpreter.rs lines
1085-1128).  The guard rejects only `a > len || b > len` where `len` is the
BYTE length of the text; the subsequent `chars.swap(a, b)` indexes the CHAR
vector and — like `Vec::swap` — panics when an index equals its length, so
the guard lets `a == len` (and, for multi-byte text, larger char indices)
through to a panic. -/
def swapEval (st : InterpState) (args : List ValueType) :
    RunRes (InterpState × ValueType) :=
  match args with
  | [x, y, z] =>
    (getInnerValue st.vars x).bind fun v1 =>
    (getInnerValue st.vars y).bind fun v2 =>
    (getInnerValue st.vars z).bind fun v3 =>
    match v1, v2 with
    | .int ia, .int ib =>
      let a := asUsize ia
      let b := asUsize ib
      match v3 with
      | .text s =>
        if a > utf8Len s ∨ b > utf8Len s then
          .err (genErr .Swap "index out of bounds")
        else if a < s.length ∧ b < s.length then
          .ok (st, .text (listSwap s a b))
        else .crash "index out of bounds: Vec swap"
      | .vlist vs =>
        if a > vs.length ∨ b > vs.length then
          .err (genErr .Swap "index out of bounds")
        else if a < vs.length ∧ b < vs.length then
          .ok (st, .vlist (listSwap vs a b))
        else .crash "index out of bounds: Vec swap"
      | _ => .err (genErr .Swap "third argument must be of type Text or List")
    | _, _ => .err (genErr .Swap "first two arguments must be of type Integer")
  | _ => .err (genErr .Swap ERROR_EXACTLY_THREE_ARGS)

/-- Drop exactly `n` bytes off the front of a string, as a Rust byte-slice
does; landing inside a multi-byte character panics. -/
def byteDrop : List Char → Nat → RunRes (List Char)
  | s, 0 => .ok s
  | [], _ + 1 => .crash "byte index out of bounds"
  | c :: rest, n + 1 =>
    if c.utf8Size ≤ n + 1 then byteDrop rest (n + 1 - c.utf8Size)
    else .crash "byte index is not a char boundary"

/-- The `CommandType::Slice` evaluation block (interpreter.rs lines
1019-1067): after the `a >= b` and byte-length bound checks, `&value[a..b]`
is a byte slice, which panics when `a` or `b` is not a character
boundary. -/
def sliceEval (st : InterpState) (args : List ValueType) :
    RunRes (InterpState × ValueType) :=
  match args with
  | [x, y, z] =>
    (getInnerValue st.vars x).bind fun v1 =>
    (getInnerValue st.vars y).bind fun v2 =>
    (getInnerValue st.vars z).bind fun v3 =>
    match v1, v2 with
    | .int ia, .int ib =>
      let a := asUsize ia
      let b := asUsize ib
      match v3 with
      | .text s =>
        if a ≥ b then
          .err (genErr .Slice "first argument must be less than second argument")
        else if a > utf8Len s ∨ b > utf8Len s then
          .err (genErr .Slice "index out of bounds")
        else
          ((byteDrop s a).bind fun t => byteTake t (b - a)).map
            fun r => (st, .text r)
      | .vlist vs =>
        if a ≥ b then
          .err (genErr .Slice "first argument must be less than second argument")
        else if a > vs.length ∨ b > vs.length then
          .err (genErr .Slice "index out of bounds")
        else .ok (st, .vlist ((vs.drop a).take (b - a)))
      | _ => .err (genErr .Slice "third argument must be of type Text or List")
    | _, _ => .err (genErr .Slice "first two arguments must be of type Integer")
  | _ => .err (genErr .Slice ERROR_EXACTLY_THREE_ARGS)

/-- The list-building pass of the multi-argument `Store` arm (interpreter.rs
lines 631-645): `Identifier` and `None` elements are rejected. -/
def storeBuildList : List ValueType → RunRes (List ValueType)
  | [] => .ok []
  | .ident _ :: _ => .err (genErr .Store "cannot store arg of type Identifier")
  | .vnone :: _ => .err (genErr .Store "cannot store arg of type None")
  | v :: rest => (storeBuildList rest).map (v :: ·)

/-- The `CommandType::Store` evaluation block (interpreter.rs lines
591-658): one argument writes the copy register, two bind a variable, more
bind a list to the final identifier.  `insert_var` failures propagate
unwrapped, exactly as the source's `Err(e) => return Err(e)`. -/
def storeEval (st : InterpState) (args : List ValueType) :
    RunRes (InterpState × ValueType) :=
  match args with
  | [] => .err (genErr .Store "must have one or more arguments")
  | [a] =>
    match a with
    | .ident _ => .err (genErr .Store ERROR_ARG_ONE_MUST_NOT_BE_IDENTIFIER)
    | .vnone => .err (genErr .Store ERROR_ARG_ONE_MUST_NOT_BE_NONE)
    | _ => .ok ({ st with copyBuffer := a }, .vnone)
  | [a, b] =>
    match b with
    | .ident nm =>
      match a with
      | .ident _ => .err (genErr .Store ERROR_ARG_ONE_MUST_NOT_BE_IDENTIFIER)
      | .vnone => .err (genErr .Store ERROR_ARG_ONE_MUST_NOT_BE_NONE)
      | _ =>
        match st.vars.insertVar nm a with
        | .ok m => .ok ({ st with vars := m }, .vnone)
        | .err e => .err e
        | .crash e => .crash e
    | _ => .err (genErr .Store ERROR_ARG_TWO_MUST_BE_IDENTIFIER)
  | args =>
    match args.getLast? with
    | some (.ident nm) =>
      match storeBuildList args.dropLast with
      | .ok lst =>
        match st.vars.insertVar nm (.vlist lst) with
        | .ok m => .ok ({ st with vars := m }, .vnone)
        | .err e => .err e
        | .crash e => .crash e
      | .err e => .err e
      | .crash e => .crash e
    | _ => .err (genErr .Store "last arg must be of type Identifier")

/-- The `CommandType::Clone` evaluation block (interpreter.rs lines
659-679). -/
def cloneEval (st : InterpState) (args : List ValueType) :
    RunRes (InterpState × ValueType) :=
  if args.length > 1 then .err (genErr .Clone "cannot have more than 1 argument")
  else
    match args with
    | [] => .ok (st, st.copyBuffer)
    | [.ident nm] =>
      match st.vars.getVar nm with
      | some v => .ok (st, v)
      | none =>
        .err (genErr .Clone
          (ERROR_UNKNOWN_IDENTIFIER ++ " **" ++ String.mk nm ++ "**"))
    | [_] => .err (genErr .Clone ERROR_ARG_MUST_BE_IDENTIFIER)
    | _ => .err (genErr .Clone "cannot have more than 1 argument")

/-- The deferred-argument table of `Interpreter::eval_command`
(interpreter.rs lines 295-315): `IfThen` defers index 1, `IfThenElse`
indices 1 and 2, `Repeat` every index except 0, `While` every index. -/
def isDeferred (ct : CommandType) (i : Nat) : Bool :=
  match ct with
  | .IfThen => i == 1
  | .IfThenElse => i == 1 || i == 2
  | .Repeat => i != 0
  | .While => true
  | _ => false

/-- The argument pre-pass of `Interpreter::eval_command` (lines 292-315):
child `Command` values are evaluated left to right through `ev` unless the
deferred table keeps them; every other value passes through untouched.  `ev`
stands for the recursive `self.eval_command` call. -/
def preEvalArgs
    (ev : InterpState → CommandType → List ValueType →
      RunRes (InterpState × ValueType))
    (ct : CommandType) :
    InterpState → Nat → List ValueType → RunRes (InterpState × List ValueType)
  | st, _, [] => .ok (st, [])
  | st, i, a :: rest =>
    match a with
    | .command sct sargs =>
      if isDeferred ct i then
        (preEvalArgs ev ct st (i + 1) rest).map fun p => (p.1, a :: p.2)
      else
        (ev st sct sargs).bind fun p =>
          (preEvalArgs ev ct p.1 (i + 1) rest).map fun q => (q.1, p.2 :: q.2)
    | _ => (preEvalArgs ev ct st (i + 1) rest).map fun p => (p.1, a :: p.2)

/-- One iteration's body runs of `Repeat` (interpreter.rs lines 573-581):
each deferred argument must be a `Command` and is evaluated in order. -/
def runRepeatBodies
    (ev : InterpState → CommandType → List ValueType →
      RunRes (InterpState × ValueType)) :
    InterpState → List ValueType → RunRes InterpState
  | st, [] => .ok st
  | st, .command sct sargs :: rest =>
    (ev st sct sargs).bind fun p => runRepeatBodies ev p.1 rest
  | _, _ :: _ => .err (genErr .Repeat ERROR_ARGS_AFTER_ARG_ONE_MUST_BE_COMMAND)

/-- The `for _i in 0..value` loop of `Repeat`: `value.toNat` iterations —
zero when the count is negative, since a reversed Rust range is empty. -/
def repeatIter
    (ev : InterpState → CommandType → List ValueType →
      RunRes (InterpState × ValueType)) :
    InterpState → Nat → List ValueType → RunRes (InterpState × ValueType)
  | st, 0, _ => .ok (st, .vnone)
  | st, k + 1, bodies =>
    (runRepeatBodies ev st bodies).bind fun st2 => repeatIter ev st2 k bodies

/-- The `CommandType::Repeat` evaluation block (interpreter.rs lines
561-590): needs at least two arguments, an `Int` count not exceeding
`LOOP_LIMIT = 65535`, and returns `None` after iterating. -/
def repeatEval
    (ev : InterpState → CommandType → List ValueType →
      RunRes (InterpState × ValueType))
    (st : InterpState) (args : List ValueType) :
    RunRes (InterpState × ValueType) :=
  match args with
  | a0 :: b :: rest =>
    match a0 with
    | .int n =>
      if 65535 < n then
        .err (genErr .Repeat "must not exceed more than 65535 repetitions")
      else repeatIter ev st n.toNat (b :: rest)
    | _ => .err (genErr .Repeat ERROR_ARG_ONE_MUST_BE_WHOLE_NUMBER)
  | _ => .err (genErr .Repeat ERROR_TWO_OR_MORE_ARGS)

/-- `Interpreter::eval_command` (interpreter.rs lines 290-1257): argument
pre-pass, then dispatch on the command type.  The fuel is structural and
models the unbounded Rust recursion (exhaustion = stack overflow).  The
evaluation blocks the claims under check concern are embedded; dispatching
any other command type crashes with a marker, and no theorem in this file
evaluates one. -/
def evalCmd :
    Nat → InterpState → CommandType → List ValueType →
      RunRes (InterpState × ValueType)
  | 0 => fun _ _ _ => .crash "recursion fuel exhausted"
  | fuel + 1 => fun st ct cargs =>
    (preEvalArgs (evalCmd fuel) ct st 0 cargs).bind fun p =>
      match ct with
      | .Divide => (divideEval p.1.vars p.2).map fun v => (p.1, v)
      | .Mod => (modEval p.1.vars p.2).map fun v => (p.1, v)
      | .Print =>
        (printEval p.1.vars p.1.output p.2).map fun q =>
          ({ p.1 with output := q.1 }, q.2)
      | .Store => storeEval p.1 p.2
      | .Clone => cloneEval p.1 p.2
      | .Capitalize => capitalizeEval p.1 p.2
      | .Swap => swapEval p.1 p.2
      | .Slice => sliceEval p.1 p.2
      | .Repeat => repeatEval (evalCmd fuel) p.1 p.2
      | _ => .crash "command not modelled in this development"

/-- The command loop of `Interpreter::interpret` (lines 263-267): evaluate
each top-level command in order, remembering the final value. -/
def interpRun (fuel : Nat) :
    InterpState → ValueType → List (CommandType × List ValueType) →
      RunRes (InterpState × ValueType)
  | st, fv, [] => .ok (st, fv)
  | st, _, (ct, cargs) :: rest =>
    (evalCmd fuel st ct cargs).bind fun p => interpRun fuel p.1 p.2 rest

/-- `Interpreter::interpret` (interpreter.rs lines 260-277) at the
parsed-command level (the lexer and parser live in files absent from src/;
a program is its list of `Command { command_type, args }` nodes).  The final
value — unless `List`, `Command` or `None` — is pushed onto the output with
no limit check, and the output is then drained: its characters are returned
and cleared while its capacity is retained.  Nothing resets `vars` or
`copy_buffer`. -/
def interpretCmds (fuel : Nat) (st : InterpState)
    (cmds : List (CommandType × List ValueType)) :
    RunRes (InterpState × List Char) :=
  (interpRun fuel st .vnone cmds).bind fun p =>
    match p.2 with
    | .vlist _ => .ok ({ p.1 with output := ⟨[], p.1.output.cap⟩ }, p.1.output.data)
    | .command _ _ => .ok ({ p.1 with output := ⟨[], p.1.output.cap⟩ }, p.1.output.data)
    | .vnone => .ok ({ p.1 with output := ⟨[], p.1.output.cap⟩ }, p.1.output.data)
    | v =>
      match toStringV p.1.vars (strFuel p.1.vars v) v with
      | .ok s =>
        .ok ({ p.1 with output := ⟨[], (p.1.output.pushStr s).cap⟩ },
          (p.1.output.pushStr s).data)
      | .err e => .err e
      | .crash e => .crash e

/-- The two-call scenario for the interpreter-state claim: the first
`interpret` stores `x = 5`, the second prints `clone(x)`. -/
def c9Run : RunRes (List Char) :=
  (interpretCmds 4 initialState [(.Store, [.int 5, .ident ("x".toList)])]).bind
    fun p =>
      (interpretCmds 4 p.1
        [(.Print, [.command .Clone [.ident ("x".toList)]])]).map Prod.snd

/-! ## Substitutor lemmas -/

theorem takeWhile_all {p : Char → Bool} :
    ∀ {l : List Char}, (∀ c ∈ l, p c = true) → l.takeWhile p = l
  | [], _ => rfl
  | c :: t, h => by
    simp only [List.takeWhile, h c (List.mem_cons_self c t)]
    exact congrArg (c :: ·) (takeWhile_all fun x hx => h x (List.mem_cons_of_mem c hx))

theorem dropWhile_all {p : Char → Bool} :
    ∀ {l : List Char}, (∀ c ∈ l, p c = true) → l.dropWhile p = []
  | [], _ => rfl
  | c :: t, h => by
    simp only [List.dropWhile, h c (List.mem_cons_self c t)]
    exact dropWhile_all fun x hx => h x (List.mem_cons_of_mem c hx)

theorem findMatch_none_of_not_mem {d : Char} :
    ∀ {s : List Char}, d ∉ s → findMatch d s = none
  | [], _ => rfl
  | c :: t, h => by
    have hcd : ¬(c = d) := fun hc => h (hc ▸ List.mem_cons_self c t)
    have ht : d ∉ t := fun hm => h (List.mem_cons_of_mem c hm)
    simp [findMatch, hcd, findMatch_none_of_not_mem ht]

/-- On input of the form `gap ++ D name` — with no delimiter in the gap, a
nonempty all-valid name, and nothing after it — the scanner finds exactly
that reference. -/
theorem findMatch_shape {d : Char} (hd : isTemplateChar d = false) :
    ∀ (g : List Char), d ∉ g →
      ∀ {name : List Char}, name ≠ [] → (∀ c ∈ name, isTemplateChar c = true) →
        findMatch d (g ++ d :: name) = some ⟨g, name, false, []⟩
  | [], _, name, hn, hv => by
    have htake : name.takeWhile isTemplateChar = name := takeWhile_all hv
    have hdrop : name.dropWhile isTemplateChar = [] := dropWhile_all hv
    have hne : name.isEmpty = false := by
      cases name with
      | nil => exact absurd rfl hn
      | cons a t => rfl
    simp [findMatch, htake, hdrop, hne]
  | a :: g, hg, name, hn, hv => by
    have had : ¬(a = d) := fun h => hg (h ▸ List.mem_cons_self a g)
    have hg' : d ∉ g := fun hm => hg (List.mem_cons_of_mem a hm)
    simp [findMatch, had, List.cons_append,
      findMatch_shape hd g hg' hn hv]

theorem substituteGo_nil (d : Char) (mapper : List Char → Option (List Char)) :
    ∀ fuel, substituteGo d mapper fuel [] = []
  | 0 => rfl
  | _ + 1 => rfl

theorem renameTemplateGo_nil (d : Char) (o n : List Char) :
    ∀ fuel, renameTemplateGo d o n fuel [] = []
  | 0 => rfl
  | _ + 1 => rfl

theorem expandReplacementGo_no_dollar (mt : List Char) :
    ∀ (fuel : Nat) (r : List Char), '$' ∉ r → expandReplacementGo mt fuel r = r
  | 0, _, _ => rfl
  | _ + 1, [], _ => rfl
  | fuel + 1, c :: rest, h => by
    have hc : ¬(c = '$') := fun hcc => h (hcc ▸ List.mem_cons_self c rest)
    have ht : '$' ∉ rest := fun hm => h (List.mem_cons_of_mem c hm)
    simp [expandReplacementGo, hc,
      expandReplacementGo_no_dollar mt fuel rest ht]

/-- A replacement with no dollar sign is interpolated to itself. -/
theorem expandReplacement_no_dollar {mt r : List Char} (h : '$' ∉ r) :
    expandReplacement mt r = r :=
  expandReplacementGo_no_dollar mt r.length r h

/-- Key shape lemma for the `Some` arm of a `substitute` pass: on
`gap ++ D name`, when the mapper resolves `name` to `r`, the pass emits the
gap followed by the interpolation of `r` against the match — the whole
match, leading delimiter included, is consumed. -/
theorem substitute_shape {d : Char} (hd : isTemplateChar d = false)
    {g name r : List Char} {mapper : List Char → Option (List Char)}
    (hg : d ∉ g) (hn : name ≠ []) (hv : ∀ c ∈ name, isTemplateChar c = true)
    (hm : mapper name = some r) :
    substitute d mapper (g ++ d :: name)
      = g ++ expandReplacement (d :: name) r := by
  unfold substitute
  cases hL : (g ++ d :: name).length with
  | zero =>
    exact absurd (List.eq_nil_of_length_eq_zero hL) (by simp)
  | succ k =>
    simp [substituteGo, findMatch_shape hd g hg hn hv, hm,
      substituteGo_nil, TMatch.matchedText]

/-- Key shape lemma for `rename_template`: on `gap ++ D old` the pass emits
`gap ++ D new`, changing no other characters. -/
theorem renameTemplate_shape {d : Char} (hd : isTemplateChar d = false)
    {g o n : List Char} (hg : d ∉ g) (ho : o ≠ [])
    (hv : ∀ c ∈ o, isTemplateChar c = true) :
    renameTemplate d o n (g ++ d :: o) = g ++ d :: n := by
  unfold renameTemplate
  cases hL : (g ++ d :: o).length with
  | zero =>
    exact absurd (List.eq_nil_of_length_eq_zero hL) (by simp)
  | succ k =>
    simp [renameTemplateGo, findMatch_shape hd g hg ho hv,
      renameTemplateGo_nil]

theorem renameTemplate_noop {d : Char} {s : List Char} (h : d ∉ s)
    (o n : List Char) : renameTemplate d o n s = s := by
  unfold renameTemplate
  cases s.length with
  | zero => rfl
  | succ k => simp [renameTemplateGo, findMatch_none_of_not_mem h]

theorem isPrefixOf_self : ∀ (l : List Char), l.isPrefixOf l = true
  | [] => rfl
  | c :: t => by simp [List.isPrefixOf, isPrefixOf_self t]

theorem likeContains_append_self (pat : List Char) :
    ∀ (g : List Char), likeContains pat (g ++ pat) = true
  | [] => by
    cases pat with
    | nil => rfl
    | cons c t => simp [likeContains, isPrefixOf_self]
  | a :: g => by
    simp [likeContains, likeContains_append_self pat g]

theorem likeContains_of_not_mem {c : Char} (pat : List Char) :
    ∀ {s : List Char}, c ∉ s → likeContains (c :: pat) s = false
  | [], _ => rfl
  | a :: t, h => by
    have hca : (c == a) = false := by
      have : ¬(c = a) := fun hc => h (hc ▸ List.mem_cons_self a t)
      simpa using this
    have ht : c ∉ t := fun hm => h (List.mem_cons_of_mem a hm)
    simp [likeContains, List.isPrefixOf, hca, likeContains_of_not_mem pat ht]

theorem not_mem_of_all_template {e : Char} (he : isTemplateChar e = false)
    {l : List Char} (hl : ∀ c ∈ l, isTemplateChar c = true) : e ∉ l :=
  fun hm => by simp [hl e hm] at he

/-- One delimiter pass of the rename propagation leaves a body untouched when
the delimiter character does not occur in it. -/
theorem rename_pass_unchanged {e : Char} {body : List Char} (he : e ∉ body)
    (o n : List Char) :
    (if likeContains (e :: o) body then renameTemplate e o n body else body)
      = body := by
  rw [likeContains_of_not_mem o he]
  simp

/-- One delimiter pass of the rename propagation rewrites a body of the form
`pre ++ D old` to `pre ++ D new`. -/
theorem rename_pass_rewrites {d : Char} (hd : isTemplateChar d = false)
    {pre o : List Char} (n : List Char) (hg : d ∉ pre) (ho : o ≠ [])
    (hv : ∀ c ∈ o, isTemplateChar c = true) :
    (if likeContains (d :: o) (pre ++ d :: o) then
        renameTemplate d o n (pre ++ d :: o)
      else pre ++ d :: o) = pre ++ d :: n := by
  have hlike : likeContains (d :: o) (pre ++ d :: o) = true :=
    likeContains_append_self (d :: o) pre
  rw [hlike]
  simp [renameTemplate_shape hd hg ho hv]

/-! ## Claim C1 -/

/-- C1.  Code bug: a single `substitute` pass with a mapper that resolves
nothing does NOT return the input unchanged.  On `"a ^x"` the `None` arm of
the source pushes only the matched text and forgets the pending gap
`input[start..template.start()]`, so the literal prefix `"a "` is lost and
the pass returns `"^x"`. -/
theorem substitute_loses_literal_text_before_unresolved_reference :
    substitute caretChar (fun _ => none) ("a ^x".toList) = "^x".toList ∧
      "^x".toList ≠ "a ^x".toList :=
  ⟨rfl, by decide⟩

/-! ## Claim C3 -/

/-- C3 counterexample.  The rename propagation iterates only the three
delimiters the `TemplateDelimiter` enum defines (`^`, `'`, `` ` ``); there is
no `$` variant, so a stored body `"$old"` — a register-delimited reference to
the renamed template — is left unchanged, although the claim requires it to
become `"$new"`. -/
theorem rename_propagation_skips_register_delimiter :
    updateTemplateReferencesInSubstitutes ("old".toList) ("new".toList)
        [("$old".toList)] = [("$old".toList)] ∧
      "$old".toList ≠ "$new".toList :=
  ⟨rfl, by decide⟩

/-- C3 (amended).  For each delimiter `D` that the `TemplateDelimiter` enum
does define, a persisted substitute body `pre ++ D old` — an exact delimited
reference to the renamed template preceded by delimiter-free text — is
rewritten to `pre ++ D new` by the rename propagation: the reference is
renamed in place and no other byte of the body changes. -/
theorem rename_propagation_rewrites_defined_delimiters
    {d : Char} (hd : d ∈ delimiterChars) {pre oldN newN : List Char}
    (hpre : ∀ e ∈ delimiterChars, e ∉ pre)
    (hold : oldN ≠ []) (holdv : ∀ c ∈ oldN, isTemplateChar c = true)
    (hnewv : ∀ c ∈ newN, isTemplateChar c = true) :
    updateTemplateReferencesInSubstitutes oldN newN [pre ++ d :: oldN]
      = [pre ++ d :: newN] := by
  have hcar : isTemplateChar caretChar = false := by decide
  have hquo : isTemplateChar singleQuoteChar = false := by decide
  have hbt : isTemplateChar backTickChar = false := by decide
  have hpc : caretChar ∉ pre := hpre caretChar (by simp [delimiterChars])
  have hpq : singleQuoteChar ∉ pre := hpre singleQuoteChar (by simp [delimiterChars])
  have hpb : backTickChar ∉ pre := hpre backTickChar (by simp [delimiterChars])
  have memO : ∀ e : Char, isTemplateChar e = false → e ∉ oldN :=
    fun e he => not_mem_of_all_template he holdv
  have memN : ∀ e : Char, isTemplateChar e = false → e ∉ newN :=
    fun e he => not_mem_of_all_template he hnewv
  simp only [delimiterChars, List.mem_cons, List.mem_singleton,
    List.not_mem_nil, or_false] at hd
  rcases hd with rfl | rfl | rfl
  · -- d = caretChar
    have h2 : singleQuoteChar ∉ pre ++ caretChar :: newN := by
      simp [List.mem_append, hpq]
      exact ⟨by decide, memN _ hquo⟩
    have h3 : backTickChar ∉ pre ++ caretChar :: newN := by
      simp [List.mem_append, hpb]
      exact ⟨by decide, memN _ hbt⟩
    simp only [updateTemplateReferencesInSubstitutes, delimiterChars,
      List.foldl, List.map]
    rw [rename_pass_rewrites hcar newN hpc hold holdv,
      rename_pass_unchanged h2, rename_pass_unchanged h3]
  · -- d = singleQuoteChar
    have h1 : caretChar ∉ pre ++ singleQuoteChar :: oldN := by
      simp [List.mem_append, hpc]
      exact ⟨by decide, memO _ hcar⟩
    have h3 : backTickChar ∉ pre ++ singleQuoteChar :: newN := by
      simp [List.mem_append, hpb]
      exact ⟨by decide, memN _ hbt⟩
    simp only [updateTemplateReferencesInSubstitutes, delimiterChars,
      List.foldl, List.map]
    rw [rename_pass_unchanged h1, rename_pass_rewrites hquo newN hpq hold holdv,
      rename_pass_unchanged h3]
  · -- d = backTickChar
    have h1 : caretChar ∉ pre ++ backTickChar :: oldN := by
      simp [List.mem_append, hpc]
      exact ⟨by decide, memO _ hcar⟩
    have h2 : singleQuoteChar ∉ pre ++ backTickChar :: oldN := by
      simp [List.mem_append, hpq]
      exact ⟨by decide, memO _ hquo⟩
    simp only [updateTemplateReferencesInSubstitutes, delimiterChars,
      List.foldl, List.map]
    rw [rename_pass_unchanged h1, rename_pass_unchanged h2,
      rename_pass_rewrites hbt newN hpb hold holdv]

/-- C3 witness: the amended theorem applied at `pre = "see "`,
`old = "old"`, `new = "new"`, delimiter `^`. -/
theorem rename_propagation_rewrites_defined_delimiters_witness :
    updateTemplateReferencesInSubstitutes ("old".toList) ("new".toList)
        [("see ".toList ++ caretChar :: "old".toList)]
      = [("see ".toList ++ caretChar :: "new".toList)] :=
  rename_propagation_rewrites_defined_delimiters (by decide) (by decide)
    (by decide) (by decide) (by decide)

/-! ## Claim C6 -/

theorem substRecLoop_count_le (d : Char)
    (mapper : List Char → Option (List Char)) (h : List Char → Nat) :
    ∀ fuel seen out, (substRecLoop d mapper h fuel seen out).2 ≤ fuel
  | 0, _, _ => Nat.le_refl 0
  | fuel + 1, seen, out => by
    simp only [substRecLoop]
    split
    · exact Nat.zero_le _
    · exact Nat.succ_le_succ (substRecLoop_count_le d mapper h fuel _ _)

/-- C6 (amended).  `substitute_recursively` always terminates and performs at
most 256 invocations of the single-pass `substitute` operation: one
unconditional initial pass plus at most `depth_limit = 255` loop passes, the
loop stopping as soon as the hash of the current output repeats a previously
seen hash. -/
theorem substitute_recursively_invocation_bound (d : Char)
    (mapper : List Char → Option (List Char)) (h : List Char → Nat)
    (input : List Char) :
    (substituteRecursivelyCount d mapper h input).2 ≤ 256 := by
  have := substRecLoop_count_le d mapper h 255 []
    (substitute d mapper input)
  simp only [substituteRecursivelyCount]
  omega

/-- Under `growMapper`, a pass on `^a0…0` (k zeros) yields `^a0…0` with k+1
zeros: each pass produces a strictly longer, hence fresh, output. -/
theorem substitute_growth (k : Nat) :
    substitute caretChar growMapper
        (caretChar :: 'a' :: List.replicate k '0')
      = caretChar :: 'a' :: List.replicate (k + 1) '0' := by
  have hv : ∀ c ∈ 'a' :: List.replicate k '0', isTemplateChar c = true := by
    intro c hc
    rcases List.mem_cons.mp hc with rfl | hc
    · decide
    · rw [List.eq_of_mem_replicate hc]; decide
  have hnd : ('$' : Char) ∉ caretChar :: ('a' :: List.replicate k '0') ++ ['0'] := by
    intro hm
    rcases List.mem_cons.mp hm with h1 | hm2
    · exact absurd h1 (by decide)
    rcases List.mem_append.mp hm2 with h2 | h3
    · rcases List.mem_cons.mp h2 with h4 | h5
      · exact absurd h4 (by decide)
      · exact absurd (List.eq_of_mem_replicate h5) (by decide)
    · exact absurd (List.mem_singleton.mp h3) (by decide)
  have := @substitute_shape caretChar (by decide) []
    ('a' :: List.replicate k '0')
    (caretChar :: ('a' :: List.replicate k '0') ++ ['0'])
    growMapper (by simp) (by simp) hv rfl
  rw [expandReplacement_no_dollar hnd] at this
  simpa [List.replicate_succ'] using this

theorem c6_loop_all_fresh :
    ∀ (fuel k : Nat) (seen : List Nat), (∀ x ∈ seen, x < k + 2) →
      (substRecLoop caretChar growMapper List.length fuel seen
          (caretChar :: 'a' :: List.replicate k '0')).2 = fuel
  | 0, _, _, _ => rfl
  | fuel + 1, k, seen, hseen => by
    have hlen : (caretChar :: 'a' :: List.replicate k '0').length = k + 2 := by
      simp
    have hnot : (caretChar :: 'a' :: List.replicate k '0').length ∉ seen := by
      rw [hlen]
      exact fun hm => absurd (hseen _ hm) (by omega)
    have hseen' : ∀ x ∈ (caretChar :: 'a' :: List.replicate k '0').length :: seen,
        x < (k + 1) + 2 := by
      intro x hx
      rcases List.mem_cons.mp hx with rfl | hx
      · omega
      · exact Nat.lt_succ_of_lt (hseen x hx)
    simp only [substRecLoop, if_neg hnot, substitute_growth]
    rw [c6_loop_all_fresh fuel (k + 1) _ hseen']

/-- C6 counterexample.  With the mapper that grows every output by one
character (so every hash is fresh) the loop never detects a repeat and
`substitute_recursively` performs its initial pass plus all 255 loop passes:
256 invocations of `substitute` in total, one more than the claimed bound of
255. -/
theorem substitute_recursively_can_invoke_256_times :
    (substituteRecursivelyCount caretChar growMapper List.length
        ("^a".toList)).2 = 256 := by
  have h0 : "^a".toList = caretChar :: 'a' :: List.replicate 0 '0' := rfl
  have hsub : substitute caretChar growMapper ("^a".toList)
      = caretChar :: 'a' :: List.replicate 1 '0' := by
    rw [h0]; exact substitute_growth 0
  simp only [substituteRecursivelyCount, hsub]
  rw [c6_loop_all_fresh 255 1 [] (by simp)]

/-! ## Claim C7 -/

/-- C2.  Code bug: the byte accounting of `VarMap` is dead.  `insert_var`
checks `size + value.get_size()` against the 6,553,500-byte cap but no code
in the crate ever increments `size`, so it stays 0 forever: two inserts of
4,000,000-byte texts under distinct names both succeed, the accounted size
after them is still 0, and the stored footprint (8,000,000 bytes) exceeds
the cap — the claimed additive accounting and the claimed rejection of the
second insert do not happen. -/
theorem bigTextValue_size : bigTextValue.getSize = 4000000 := by
  show (List.replicate 4000000 'a').length = 4000000
  exact List.length_replicate 4000000 'a'

theorem c2_insert_first : VarMap.empty.insertVar ("x".toList) bigTextValue
    = .ok ⟨[(("x".toList), bigTextValue)], 0⟩ := by
  unfold VarMap.insertVar
  rw [bigTextValue_size, if_pos (by norm_num [VarMap.empty, VAR_MAP_BYTE_LIMIT])]
  rfl

theorem c2_insert_second :
    (VarMap.mk [(("x".toList), bigTextValue)] 0).insertVar
        ("y".toList) bigTextValue
      = .ok ⟨[(("x".toList), bigTextValue), (("y".toList), bigTextValue)], 0⟩ := by
  have hxy : ((("x".toList : List Char)) == "y".toList) = false := by decide
  have hassoc : assocInsert ("y".toList) bigTextValue
      [(("x".toList), bigTextValue)]
      = [(("x".toList), bigTextValue), (("y".toList), bigTextValue)] := by
    simp [assocInsert, hxy]
  unfold VarMap.insertVar
  rw [bigTextValue_size]
  rw [if_pos (by norm_num [VAR_MAP_BYTE_LIMIT])]
  rw [hassoc]

theorem getSizeList_cons (v : ValueType) (l : List ValueType) :
    ValueType.getSizeList (v :: l) = v.getSize + ValueType.getSizeList l := rfl

theorem getSizeList_nil : ValueType.getSizeList [] = 0 := rfl

theorem c2_footprint : VAR_MAP_BYTE_LIMIT < VarMap.storedBytes
    ⟨[(("x".toList), bigTextValue), (("y".toList), bigTextValue)], 0⟩ := by
  have h : VarMap.storedBytes
      ⟨[(("x".toList), bigTextValue), (("y".toList), bigTextValue)], 0⟩
      = 8000000 := by
    show ValueType.getSizeList [bigTextValue, bigTextValue] = 8000000
    rw [getSizeList_cons, getSizeList_cons, getSizeList_nil]
    rw [bigTextValue_size]
  rw [h]
  norm_num [VAR_MAP_BYTE_LIMIT]

theorem varmap_size_accounting_is_dead :
    ∃ m1 m2 : VarMap,
      VarMap.empty.insertVar ("x".toList) bigTextValue = .ok m1 ∧
        m1.insertVar ("y".toList) bigTextValue = .ok m2 ∧
          m2.size = 0 ∧ VAR_MAP_BYTE_LIMIT < m2.storedBytes :=
  ⟨_, _, c2_insert_first, c2_insert_second, rfl, c2_footprint⟩

/-! ## Claim C8 -/

theorem utf8Len_append (a b : List Char) :
    utf8Len (a ++ b) = utf8Len a + utf8Len b := by
  simp [utf8Len]

theorem utf8Len_replicate (n : Nat) (c : Char) :
    utf8Len (List.replicate n c) = n * c.utf8Size := by
  simp [utf8Len, List.map_replicate, List.sum_replicate, smul_eq_mul]

theorem byteLen_pushStr (b : StrBuf) (s : List Char) :
    (b.pushStr s).byteLen = b.byteLen + utf8Len s := by
  unfold StrBuf.pushStr
  split <;> simp [StrBuf.byteLen, utf8Len_append]

theorem pushStr_len_le_cap (b : StrBuf) (s : List Char) :
    (b.pushStr s).byteLen ≤ (b.pushStr s).cap := by
  unfold StrBuf.pushStr
  split
  next h => simpa [StrBuf.byteLen, utf8Len_append] using h
  next h =>
    simp only [StrBuf.byteLen, utf8Len_append]
    exact le_trans (Nat.le_max_right (2 * b.cap) _) (Nat.le_max_left _ 8)

/-- C5 (amended).  Print's guard is capacity-based: it fails as soon as the
output buffer's allocated capacity plus the argument string's capacity would
pass 8000 bytes.  The guard is conservative — length never exceeds capacity —
so whenever Print succeeds, the accumulated output stays within 8000 bytes:
the claimed output bound holds even though the claimed "exactly when"
characterisation of the failure condition does not. -/
theorem print_output_stays_within_limit (m : VarMap) :
    ∀ (args : List ValueType) (out : StrBuf),
      out.byteLen ≤ out.cap → out.byteLen ≤ OUTPUT_BYTE_LIMIT →
      ∀ out' v, printEval m out args = .ok (out', v) →
        out'.byteLen ≤ OUTPUT_BYTE_LIMIT ∧ out'.byteLen ≤ out'.cap
  | [], out, hlc, hlim, out', v, h => by
    unfold printEval at h
    cases RunRes.ok.inj h
    exact ⟨hlim, hlc⟩
  | a :: rest, out, hlc, hlim, out', v, h => by
    unfold printEval at h
    cases hS : toStringV m (strFuel m a) a with
    | ok s =>
      simp only [hS] at h
      by_cases hcap : out.cap + utf8Len s ≤ OUTPUT_BYTE_LIMIT
      · rw [if_pos hcap] at h
        have hnew : (out.pushStr s).byteLen ≤ OUTPUT_BYTE_LIMIT := by
          rw [byteLen_pushStr]
          exact le_trans (Nat.add_le_add_right hlc _) hcap
        exact print_output_stays_within_limit m rest (out.pushStr s)
          (pushStr_len_le_cap out s) hnew out' v h
      · rw [if_neg hcap] at h
        exact RunRes.noConfusion h
    | err e =>
      simp only [hS] at h
      exact RunRes.noConfusion h
    | crash e =>
      simp only [hS] at h
      exact RunRes.noConfusion h

/-- C5 witness: the amended theorem at a two-byte print into a fresh
buffer. -/
theorem print_output_stays_within_limit_witness :
    (StrBuf.empty.pushStr ("hi".toList)).byteLen ≤ OUTPUT_BYTE_LIMIT ∧
      (StrBuf.empty.pushStr ("hi".toList)).byteLen
        ≤ (StrBuf.empty.pushStr ("hi".toList)).cap :=
  print_output_stays_within_limit VarMap.empty [.text ("hi".toList)]
    StrBuf.empty (by decide) (by decide)
    (StrBuf.empty.pushStr ("hi".toList)) .vnone rfl

/-- C5 counterexample.  Printing a 4097-byte text and then two single bytes
into a fresh buffer: the first push sets the capacity to 4097, the second
grows it to 8194 (doubling), and the third print is REJECTED by the
capacity-based guard (8194 + 1 > 8000) although the appended lengths total
4099 ≤ 8000 bytes — the claimed "fails exactly when appending would make the
output exceed 8000 bytes" is false. -/
theorem printEval_cons_ok {m : VarMap} {out : StrBuf} {a : ValueType}
    {rest : List ValueType} {s : List Char}
    (hS : toStringV m (strFuel m a) a = .ok s)
    (hcap : out.cap + utf8Len s ≤ OUTPUT_BYTE_LIMIT) :
    printEval m out (a :: rest) = printEval m (out.pushStr s) rest := by
  unfold printEval
  split
  next s' hS' =>
    rw [hS] at hS'
    cases RunRes.ok.inj hS'
    rw [if_pos hcap]
    exact printEval.eq_def m (out.pushStr s) rest
  next e hS' => rw [hS] at hS'; exact RunRes.noConfusion hS'
  next e hS' => rw [hS] at hS'; exact RunRes.noConfusion hS'

theorem printEval_cons_reject {m : VarMap} {out : StrBuf} {a : ValueType}
    {rest : List ValueType} {s : List Char}
    (hS : toStringV m (strFuel m a) a = .ok s)
    (hcap : ¬(out.cap + utf8Len s ≤ OUTPUT_BYTE_LIMIT)) :
    printEval m out (a :: rest)
      = .err "Output byte limit of 8000 bytes exceeded" := by
  unfold printEval
  split
  next s' hS' =>
    rw [hS] at hS'
    cases RunRes.ok.inj hS'
    rw [if_neg hcap]
  next e hS' => rw [hS] at hS'; exact RunRes.noConfusion hS'
  next e hS' => rw [hS] at hS'; exact RunRes.noConfusion hS'

/-- C5 counterexample.  Printing a 4097-byte text and then two single bytes
into a fresh buffer: the first push sets the capacity to 4097, the second
grows it to 8194 (amortized doubling), and the third print is REJECTED by
the capacity-based guard (8194 + 1 > 8000) although the appended lengths
total 4099 ≤ 8000 bytes — the claimed "fails exactly when appending would
make the output exceed 8000 bytes" is false. -/
theorem print_rejects_within_length_limit :
    printEval VarMap.empty StrBuf.empty c5Args
        = .err "Output byte limit of 8000 bytes exceeded" ∧
      utf8Len (List.replicate 4097 'a') + utf8Len ['a'] + utf8Len ['a']
        ≤ OUTPUT_BYTE_LIMIT := by
  have ha : ('a'.utf8Size) = 1 := by decide
  have hbig : utf8Len (List.replicate 4097 'a') = 4097 := by
    rw [utf8Len_replicate, ha, Nat.mul_one]
  have h2 : utf8Len ['a'] = 1 := by simp [utf8Len, ha]
  have t1 : toStringV VarMap.empty (strFuel VarMap.empty c5BigArg) c5BigArg
      = .ok (List.replicate 4097 'a') := by
    cases hF : strFuel VarMap.empty c5BigArg <;> rfl
  have t2 : ∀ out : StrBuf, toStringV VarMap.empty
      (strFuel VarMap.empty (.text ['a'])) (.text ['a']) = .ok ['a'] := by
    intro _
    cases hF : strFuel VarMap.empty (.text ['a']) <;> rfl
  have b1 : StrBuf.empty.pushStr (List.replicate 4097 'a')
      = ⟨List.replicate 4097 'a', 4097⟩ := by
    unfold StrBuf.pushStr
    rw [show StrBuf.empty.byteLen = 0 from rfl, hbig,
      show StrBuf.empty.cap = 0 from rfl]
    rw [if_neg (by norm_num)]
    rw [show StrBuf.empty.data = ([] : List Char) from rfl, List.nil_append]
    norm_num
  have b2 : (StrBuf.mk (List.replicate 4097 'a') 4097).pushStr ['a']
      = ⟨List.replicate 4097 'a' ++ ['a'], 8194⟩ := by
    unfold StrBuf.pushStr
    rw [show (StrBuf.mk (List.replicate 4097 'a') 4097).byteLen
        = utf8Len (List.replicate 4097 'a') from rfl, hbig, h2,
      show (StrBuf.mk (List.replicate 4097 'a') 4097).cap = 4097 from rfl]
    norm_num
  constructor
  · show printEval VarMap.empty StrBuf.empty
      (c5BigArg :: .text ['a'] :: .text ['a'] :: []) = _
    rw [printEval_cons_ok t1
      (by rw [hbig, show StrBuf.empty.cap = 0 from rfl]; norm_num [OUTPUT_BYTE_LIMIT])]
    rw [b1]
    rw [printEval_cons_ok (t2 StrBuf.empty)
      (by rw [h2, show (StrBuf.mk (List.replicate 4097 'a') 4097).cap = 4097 from rfl]
          norm_num [OUTPUT_BYTE_LIMIT])]
    rw [b2]
    rw [printEval_cons_reject (t2 StrBuf.empty)
      (by rw [h2, show (StrBuf.mk (List.replicate 4097 'a' ++ ['a']) 8194).cap = 8194 from rfl]
          norm_num [OUTPUT_BYTE_LIMIT])]
  · rw [utf8Len_replicate, ha, h2]
    norm_num [OUTPUT_BYTE_LIMIT]

/-! ## Claim C4 -/

/-- C4.  Code bug: evaluation panics on plain user input.  `swap(0, 3,
"abc")` passes the `b > value.len()` guard (3 is not greater than 3) and
then `chars.swap(0, 3)` indexes a 3-element vector at 3 — a Rust panic, not
an error return.  `capitalize` on text whose first character is multi-byte
UTF-8 panics in the byte slice `self[0..1]`, and `slice(0, 1, "é")` passes
the byte-length bound checks and panics slicing `&value[0..1]` inside the
two-byte character. -/
theorem text_commands_panic_on_user_input :
    evalCmd 1 initialState .Swap [.int 0, .int 3, .text ("abc".toList)]
        = .crash "index out of bounds: Vec swap" ∧
      evalCmd 2 initialState .Capitalize [.text ("émile".toList)]
        = .crash "byte index 1 is not a char boundary" ∧
      evalCmd 2 initialState .Slice [.int 0, .int 1, .text ("é".toList)]
        = .crash "byte index is not a char boundary" :=
  ⟨rfl, rfl, rfl⟩

/-! ## Claim C9 -/

/-- C9 counterexample.  A binding stored during one `interpret` call IS
observable in a later call on the same interpreter: `interpret` never resets
`vars` or `copy_buffer`.  Running `store(5, x)` and then, in a separate
call, `print(clone(x))` yields `"5"`, while the same second call on a fresh
interpreter fails with the unknown-identifier error — so the `"5"` can only
come from state surviving the first call. -/
theorem interpreter_state_persists_across_interpret_calls :
    c9Run = .ok ("5".toList) ∧
      interpretCmds 4 initialState
          [(.Print, [.command .Clone [.ident ("x".toList)]])]
        = .err (genErr .Clone (ERROR_UNKNOWN_IDENTIFIER ++ " **x**")) :=
  ⟨rfl, rfl⟩

/-- C9 (amended).  What `interpret` does refresh: the accumulated output is
returned and drained (its characters cleared, its capacity kept) on every
call, while the variable store, the copy register and the log pass through
untouched — state created in one call remains for the next. -/
theorem interpret_drains_output_and_keeps_state (fuel : Nat)
    (st : InterpState) :
    interpretCmds fuel st []
      = .ok ({ st with output := ⟨[], st.output.cap⟩ }, st.output.data) := rfl

/-! ## Claim C10 -/

theorem preEvalArgs_repeat_defers_commands
    (ev : InterpState → CommandType → List ValueType →
      RunRes (InterpState × ValueType)) (st : InterpState) :
    ∀ (bodies : List ValueType) (i : Nat), 1 ≤ i →
      (∀ b ∈ bodies, ∃ sct sargs, b = ValueType.command sct sargs) →
      preEvalArgs ev .Repeat st i bodies = .ok (st, bodies)
  | [], _, _, _ => rfl
  | b :: rest, i, hi, hc => by
    obtain ⟨sct, sargs, rfl⟩ := hc b (List.mem_cons_self b rest)
    have hne : i ≠ 0 := by omega
    have hdef : isDeferred .Repeat i = true := by simp [isDeferred, hne]
    simp only [preEvalArgs, hdef, if_true]
    rw [preEvalArgs_repeat_defers_commands ev st rest (i + 1) (by omega)
      (fun x hx => hc x (List.mem_cons_of_mem _ hx))]
    rfl

/-- C10.  A `Repeat` whose first argument is a negative `Int` and whose
remaining arguments are `Command` values evaluates successfully with zero
iterations and returns `None`, leaving the state untouched: the deferred
arguments pass the pre-pass unevaluated and the Rust range `0..n` is empty
for negative `n`. -/
theorem repeat_negative_count_is_zero_iterations
    (fuel : Nat) (st : InterpState) (n : Int) (bodies : List ValueType)
    (hn : n < 0) (hb : bodies ≠ [])
    (hc : ∀ b ∈ bodies, ∃ sct sargs, b = ValueType.command sct sargs) :
    evalCmd (fuel + 1) st .Repeat (.int n :: bodies) = .ok (st, .vnone) := by
  obtain ⟨b, rest, rfl⟩ : ∃ b rest, bodies = b :: rest := by
    cases bodies with
    | nil => exact absurd rfl hb
    | cons b r => exact ⟨b, r, rfl⟩
  have h0 : preEvalArgs (evalCmd fuel) .Repeat st 0 (.int n :: b :: rest)
      = (preEvalArgs (evalCmd fuel) .Repeat st 1 (b :: rest)).map
          fun p => (p.1, .int n :: p.2) := rfl
  have hpre : preEvalArgs (evalCmd fuel) .Repeat st 0 (.int n :: b :: rest)
      = .ok (st, .int n :: b :: rest) := by
    rw [h0, preEvalArgs_repeat_defers_commands (evalCmd fuel) st (b :: rest) 1
      (by omega) hc]
    rfl
  simp only [evalCmd, hpre, RunRes.bind]
  have h1 : repeatEval (evalCmd fuel) st (.int n :: b :: rest)
      = if 65535 < n then
          .err (genErr .Repeat "must not exceed more than 65535 repetitions")
        else repeatIter (evalCmd fuel) st n.toNat (b :: rest) := rfl
  rw [h1, if_neg (by omega), Int.toNat_of_nonpos (le_of_lt hn)]
  rfl

/-- C10 witness: the theorem at `repeat(-1, new_line())`. -/
theorem repeat_negative_count_is_zero_iterations_witness :
    evalCmd 1 initialState .Repeat [.int (-1), .command .NewLine []]
      = .ok (initialState, .vnone) :=
  repeat_negative_count_is_zero_iterations 0 initialState (-1)
    [.command .NewLine []] (by decide) (List.cons_ne_nil _ _)
    (fun b hb => by
      rw [List.mem_singleton.mp hb]
      exact ⟨.NewLine, [], rfl⟩)

end Funboy
